import Mathlib

/-!
Verification of the ar-io-node ingestion pipeline specification against a
shallow embedding of the repository's code.

Sources embedded:
* `test/workers/block-importer.test.ts` — the mock chain source
  (`MockArweaveChainSource`) whose `getBlockAndTxsByHeight` partitions a
  block's tx ids into fetched txs and missing tx ids.
* `src/app.ts` — the data route regex, the data route handler and the
  uncaught-exception listener.
* The `BlockImporter` / `StandaloneSqliteDatabase` classes are not part of
  the available sources (only their tests are); following the spec they are
  modelled from the specification's own wording, and every such definition
  carries a `Modelled from the spec:` doc comment.
-/

namespace ArIoNode

/-- Transaction record. Modelled from the spec: §3 lists the attributes of a
transaction (id, owner, target, quantity, reward, signature, data size); the
implementation's `JsonTransaction` type (`src/types.ts`) is not among the
available sources. Only `id` is inspected by the embedded operations; the
remaining attributes are carried opaquely. -/
structure JsonTransaction where
  id : String
  owner : String := ""
  target : String := ""
  quantity : String := ""
  reward : String := ""
  signature : String := ""
  dataSize : Nat := 0
deriving DecidableEq

/-- Block record. Modelled from the spec: §3 — a block is identified by a
43-character base64url id (`indep_hash`), carries its previous-block id, a
height and an ordered list of transaction ids; nonce/proof fields are
carried opaquely. -/
structure JsonBlock where
  indep_hash : String
  previous_block : String
  height : Nat
  txs : List String
  nonce : String := ""
deriving DecidableEq

/-- The record returned by `getBlockAndTxsByHeight` (shape of the object
literal returned at `block-importer.test.ts:67`). -/
structure BlockAndTxs where
  block : JsonBlock
  txs : List JsonTransaction
  missingTxIds : List String
deriving DecidableEq

/-- The chain source interface as exercised by `MockArweaveChainSource`
(`block-importer.test.ts:17-77`): `getBlockByHeight` resolves a height to a
block when the fixture exists (`none` models the thrown
"Block not found"), `getTx` resolves a tx id when the fixture exists
(`none` models the thrown "Transaction not found"), and `missingTxIds` is
the list populated by `addMissingTxIds`. -/
structure ChainSource where
  getBlockByHeight : Nat → Option JsonBlock
  getTx : String → Option JsonTransaction
  missingTxIds : List String

/-- One step of the tx-collection loop of
`MockArweaveChainSource.getBlockAndTxsByHeight` (`block-importer.test.ts:55-65`):
ids listed in `missingTxIds` are pushed to the missing list without a fetch;
otherwise a successful `getTx` pushes the tx, and a failed one pushes the id
to the missing list. -/
def collectTxs (cs : ChainSource) (acc : List JsonTransaction × List String)
    (txId : String) : List JsonTransaction × List String :=
  if cs.missingTxIds.contains txId then (acc.1, acc.2 ++ [txId])
  else
    match cs.getTx txId with
    | some tx => (acc.1 ++ [tx], acc.2)
    | none => (acc.1, acc.2 ++ [txId])

/-- `MockArweaveChainSource.getBlockAndTxsByHeight`
(`block-importer.test.ts:50-68`): fetch the block (propagating its failure),
then partition its tx id list via `collectTxs`. -/
def getBlockAndTxsByHeight (cs : ChainSource) (height : Nat) :
    Except String BlockAndTxs :=
  match cs.getBlockByHeight height with
  | none => .error "Block not found"
  | some block =>
    let r := block.txs.foldl (collectTxs cs) ([], [])
    .ok { block := block, txs := r.1, missingTxIds := r.2 }

/-- A missing-tx journal entry. Modelled from the spec: §3 `MissingTxJournal`
— entries carry the tx id and the height at which the id was first seen
(attempt bookkeeping is owned by the repair worker and is not touched by the
operations embedded here). -/
structure MissingTxEntry where
  txId : String
  firstSeenHeight : Nat
deriving DecidableEq

/-- Modelled from the spec: the `StandaloneSqliteDatabase` class
(`src/database/standalone-sqlite.ts`) is not among the available sources.
§4.D — a transactional store of stored blocks, stored transactions and the
missing-tx journal. -/
structure ChainDb where
  blocks : List JsonBlock
  txs : List JsonTransaction
  missingTxIds : List MissingTxEntry
deriving DecidableEq

/-- The empty chain database (fresh `core.db`). -/
def emptyDb : ChainDb := { blocks := [], txs := [], missingTxIds := [] }

/-- Insert `x` into `acc` unless an element with the same key is already
present; realizes the spec's §4.D uniqueness invariants (`block.id` unique,
`tx.id` unique, one journal entry per missing id). -/
def insertBy {α : Type} (key : α → String) (acc : List α) (x : α) : List α :=
  if acc.any (fun y => key y == key x) then acc else acc ++ [x]

/-- Largest height among a list of blocks, `-1` when there are none. -/
def maxHeightOf (l : List JsonBlock) : Int :=
  l.foldl (fun m b => max m (b.height : Int)) (-1)

/-- Modelled from the spec: §4.D `getMaxHeight() → int` — largest stored
block height, or `-1` if empty. -/
def ChainDb.getMaxHeight (db : ChainDb) : Int :=
  maxHeightOf db.blocks

/-- Modelled from the spec: §4.D `getNewBlockHashByHeight(h) → id | absent`.
-/
def ChainDb.getNewBlockHashByHeight (db : ChainDb) (h : Nat) : Option String :=
  (db.blocks.find? (fun b => b.height == h)).map (fun b => b.indep_hash)

/-- Modelled from the spec: §4.D `saveBlockAndTxs(block, txs, missingTxIds)`
— inserts the block, inserts each tx, inserts one missing-tx journal entry
per missing id, all atomically; idempotent on `block.id` (repeated calls
with identical content are no-ops). -/
def ChainDb.saveBlockAndTxs (db : ChainDb) (block : JsonBlock)
    (txs : List JsonTransaction) (missingTxIds : List String) : ChainDb :=
  if db.blocks.any (fun b => b.indep_hash == block.indep_hash) then db
  else
    { blocks := db.blocks ++ [block]
      txs := txs.foldl (insertBy (fun t => t.id)) db.txs
      missingTxIds :=
        (missingTxIds.map (fun m => MissingTxEntry.mk m block.height)).foldl
          (insertBy (fun e => e.txId)) db.missingTxIds }

/-- Modelled from the spec: §4.D `resetToHeight(h)` — deletes all blocks
with height > h and their transactions; preserves the journal. -/
def ChainDb.resetToHeight (db : ChainDb) (h : Nat) : ChainDb :=
  let removed := db.blocks.filter (fun b => decide (h < b.height))
  { blocks := db.blocks.filter (fun b => decide (b.height ≤ h))
    txs := db.txs.filter (fun t => !(removed.any (fun b => b.txs.contains t.id)))
    missingTxIds := db.missingTxIds }

/-- The counts reported by `getDebugInfo` (shape used at
`block-importer.test.ts:131-167` and spec §4.D). -/
structure DebugCounts where
  newBlocks : Nat
  newTxs : Nat
  missingTxs : Nat
  maxHeight : Int
deriving DecidableEq

/-- Modelled from the spec: §4.D `getDebugInfo() → counts` — returns
`{newBlocks, newTxs, missingTxs, maxHeight}`. -/
def ChainDb.getDebugInfo (db : ChainDb) : DebugCounts :=
  { newBlocks := db.blocks.length
    newTxs := db.txs.length
    missingTxs := db.missingTxIds.length
    maxHeight := db.getMaxHeight }

/-- Modelled from the spec: §4.E fork repair — "If no match within
`MAX_FORK_DEPTH = 50` steps, fail with `MaximumForkDepthExceeded`". -/
def MAX_FORK_DEPTH : Nat := 50

/-- Failure outcomes of a single `importBlock` call: the fatal
`MaximumForkDepthExceeded` of spec §4.E, or a failed block fetch (the mock
chain source throws "Block not found"). -/
inductive ImportError where
  | maximumForkDepthExceeded
  | blockNotFound (height : Nat)
deriving DecidableEq

/-- Modelled from the spec: the `BlockImporter` class
(`src/workers/block-importer.ts`) is not among the available sources. §4.E —
the importer owns a `startHeight` and drives the chain database; its
`height` state variable ("next height to import") is the derived
`nextHeightCandidate` below, per §3 `ChainHead` and §4.E step 1. -/
structure BlockImporter where
  startHeight : Nat
  chainDb : ChainDb
deriving DecidableEq

/-- Modelled from the spec: §4.E fork repair — at height `h` the upstream
block (fetched by height) is compared to the one stored at `h`; a match at
the first agreeing id marks the common ancestor. An absent stored block or
an absent upstream block is not a match. -/
def forkMatch (cs : ChainSource) (db : ChainDb) (h : Nat) : Bool :=
  match cs.getBlockByHeight h with
  | some upstream =>
    match db.getNewBlockHashByHeight h with
    | some storedId => upstream.indep_hash == storedId
    | none => false
  | none => false

/-- Modelled from the spec: §4.E fork repair — walk backwards from height
`h` (`nextHeight - 1`, `nextHeight - 2`, …) with `fuel` remaining steps; at
the first match reset the database to that height and resume at `h + 1`;
when the fuel (MAX_FORK_DEPTH) runs out, fail with
`maximumForkDepthExceeded`. -/
def forkRepair (cs : ChainSource) (db : ChainDb) :
    Nat → Nat → Except ImportError (ChainDb × Nat)
  | 0, _ => .error .maximumForkDepthExceeded
  | fuel + 1, h =>
    if forkMatch cs db h then .ok (db.resetToHeight h, h + 1)
    else forkRepair cs db fuel (h - 1)

/-- Modelled from the spec: §4.E steps 2–6 of one importer iteration at
`nextHeight`. Fetch the block and txs; if a stored predecessor exists check
it against the fetched block's `previous_block` (step 3); on a pure gap
(`nextHeight - storedMaxHeight > 1`) import the first block of the gap at
its true height instead; on a fork walk backwards via `forkRepair`;
otherwise persist the fetched block (step 4) and advance. -/
def importBlock (cs : ChainSource) (imp : BlockImporter) (nextHeight : Nat) :
    Except ImportError BlockImporter :=
  match getBlockAndTxsByHeight cs nextHeight with
  | .error _ => .error (.blockNotFound nextHeight)
  | .ok r =>
    let db := imp.chainDb
    let storedMax := db.getMaxHeight
    if 0 ≤ storedMax ∧
        db.getNewBlockHashByHeight (nextHeight - 1) ≠ some r.block.previous_block then
      if 1 < (nextHeight : Int) - storedMax then
        let gapHeight := (storedMax + 1).toNat
        match getBlockAndTxsByHeight cs gapHeight with
        | .error _ => .error (.blockNotFound gapHeight)
        | .ok g =>
          .ok { imp with chainDb := db.saveBlockAndTxs g.block g.txs g.missingTxIds }
      else
        match forkRepair cs db MAX_FORK_DEPTH (nextHeight - 1) with
        | .error e => .error e
        | .ok p => .ok { imp with chainDb := p.1 }
    else
      .ok { imp with chainDb := db.saveBlockAndTxs r.block r.txs r.missingTxIds }

/-- Modelled from the spec: §4.E step 1 — the candidate next height,
`max(startHeight, storedMaxHeight + 1)`. -/
def nextHeightCandidate (imp : BlockImporter) : Nat :=
  max imp.startHeight (imp.chainDb.getMaxHeight + 1).toNat

/-- Modelled from the spec: §4.E step 1 — one tip observation of
`getNextHeight`: if the candidate exceeds the observed tip the importer
keeps waiting (`none`); otherwise the candidate is returned. -/
def getNextHeight (imp : BlockImporter) (tip : Nat) : Option Nat :=
  if tip < nextHeightCandidate imp then none
  else some (nextHeightCandidate imp)

/-- Modelled from the spec: §4.E step 1 — the cooperative polling loop of
`getNextHeight` over the successively observed values of `C.getHeight()`;
it resolves at the first observation whose tip has reached the candidate. -/
def getNextHeightAwait (imp : BlockImporter) : List Nat → Option Nat
  | [] => none
  | t :: ts =>
    match getNextHeight imp t with
    | some n => some n
    | none => getNextHeightAwait imp ts

/-- The character class `[a-zA-Z0-9-_]` of `dataPathRegex` (`app.ts:193`);
the regex's `i` flag adds nothing since both letter cases are listed. -/
def isDataPathChar (c : Char) : Bool :=
  ('a' ≤ c && c ≤ 'z') || ('A' ≤ c && c ≤ 'Z') || ('0' ≤ c && c ≤ '9') ||
    c == '-' || c == '_'

/-- Consume exactly `n` characters of the `dataPathRegex` class, returning
the remaining characters, or `none` when the input runs out or a character
outside the class is hit (the `{43}` quantifier of `app.ts:193`). -/
def takeClass43 : Nat → List Char → Option (List Char)
  | 0, rest => some rest
  | _ + 1, [] => none
  | n + 1, c :: cs => if isDataPathChar c then takeClass43 n cs else none

/-- The optional leading slash `^\/?` of both alternatives of
`dataPathRegex` (`app.ts:193`). Consuming the slash whenever present is
equivalent to the regex's choice, since `/` is outside the capture class,
so a retained leading slash could never start the 43-character group. -/
def afterOptionalSlash (l : List Char) : List Char :=
  match l with
  | '/' :: r => r
  | r => r

/-- What `dataPathRegex` accepts after the 43-character group: the first
alternative (`\/?$`) accepts end-of-input or a single trailing slash, the
second (`\/(.*)$`) a slash followed by anything — together, the remainder
is empty or starts with `/` (and a failed group match accepts nothing). -/
def restAccepted : Option (List Char) → Bool
  | some rest => rest.isEmpty || rest.head? == some '/'
  | none => false

/-- `dataPathRegex` (`app.ts:192-193`):
`^\/?([a-zA-Z0-9-_]{43})\/?$|^\/?([a-zA-Z0-9-_]{43})\/(.*)$` applied to the
request path: optionally a slash, then exactly 43 class characters, then an
accepted remainder. -/
def dataPathRegexTest (s : String) : Bool :=
  restAccepted (takeClass43 43 (afterOptionalSlash s.data))

/-- The spec's character class for tx ids: `[A-Za-z0-9_-]`
(§6: "`txId` matches `^[A-Za-z0-9_-]{43}$`"). -/
def isBase64UrlChar (c : Char) : Bool :=
  ('A' ≤ c && c ≤ 'Z') || ('a' ≤ c && c ≤ 'z') || ('0' ≤ c && c ≤ '9') ||
    c == '_' || c == '-'

/-- The first path segment: everything up to the next `/`. -/
def firstSegment (r : List Char) : List Char :=
  r.takeWhile (fun c => !(c == '/'))

/-- The spec's description of the data route's path language (§6): a path
whose first segment is a 43-character base64url id, optionally followed by
a subpath. Stated for request paths, which begin with `/`; whatever follows
the first segment (nothing, or `/` plus a subpath) is accepted. -/
def specDataPath (s : String) : Bool :=
  match s.data with
  | '/' :: r => (firstSegment r).length == 43 && (firstSegment r).all isBase64UrlChar
  | _ => false

/-- Outcomes of `txDataSource.getTxData` as seen by the route handler
(`app.ts:195-202`): a streamable payload, or a thrown error — the spec's
`DataStreamError` and `NotFound`, or anything else (the handler's catch is
untyped). -/
inductive TxDataError where
  | dataStream
  | notFound
  | other (message : String)
deriving DecidableEq

/-- A response body: a piped byte stream (`.data.pipe(res)`) or a plain
text body (`res.send`). -/
inductive ResponseBody where
  | stream (bytes : List Nat)
  | text (s : String)
deriving DecidableEq

/-- An HTTP response as produced by the embedded handlers. Express's
default status for a piped response is 200. -/
structure HttpResponse where
  status : Nat
  body : ResponseBody
deriving DecidableEq

/-- The data route handler (`app.ts:195-202`): pipe the payload on success
(status 200), and answer 404 "Not found" on any thrown error — the catch
block does not inspect the error (the source marks this with
"TODO handle 500s separately"). -/
def dataRouteHandler (result : Except TxDataError (List Nat)) : HttpResponse :=
  match result with
  | .ok bytes => { status := 200, body := .stream bytes }
  | .error _ => { status := 404, body := .text "Not found" }

/-- Process-wide metric and log state relevant to the uncaught-exception
path (`app.ts:56-64`). -/
structure MetricsState where
  uncaughtExceptionsTotal : Nat
  logs : List String
deriving DecidableEq

/-- The listener installed by `process.on('uncaughtException', …)`
(`app.ts:61-64`): increment `uncaught_exceptions_total` and log the error.
-/
def uncaughtExceptionListener (m : MetricsState) (error : String) : MetricsState :=
  { uncaughtExceptionsTotal := m.uncaughtExceptionsTotal + 1
    logs := m.logs ++ ["Uncaught exception: " ++ error] }

/-- A process: its metrics, whether an `uncaughtException` listener is
registered, and whether it has crashed. -/
structure ProcessState where
  metrics : MetricsState
  listenerRegistered : Bool
  crashed : Bool
deriving DecidableEq

/-- Modelled from the spec: the Node.js runtime dispatch of an uncaught
exception is not part of the sources — with a registered
`uncaughtException` listener the listener runs and the process continues;
without one the default behavior terminates the process (§7 `Programming`
errors "are logged but do not crash the process"). -/
def raiseUncaughtException (p : ProcessState) (error : String) : ProcessState :=
  if p.listenerRegistered then
    { p with metrics := uncaughtExceptionListener p.metrics error }
  else
    { p with crashed := true }

/-- The application process right after `app.ts:61` ran: the
uncaught-exception listener is registered and the process is alive. -/
def appProcess (m : MetricsState) : ProcessState :=
  { metrics := m, listenerRegistered := true, crashed := false }

/-- A concrete linked mock block at height `h`: id `id<h>`, previous id
`id<h-1>`, no transactions (stands in for the JSON fixtures of
`test/mock_files`, whose concrete ids are immaterial to the claims). -/
def mockBlock (h : Nat) : JsonBlock :=
  { indep_hash := "id" ++ Nat.repr h
    previous_block := "id" ++ Nat.repr (h - 1)
    height := h
    txs := [] }

/-- A mock chain source serving the linked blocks at heights 1–6 (the gap
scenario's fixture set). -/
def cs6 : ChainSource :=
  { getBlockByHeight := fun h => if 1 ≤ h ∧ h ≤ 6 then some (mockBlock h) else none
    getTx := fun _ => none
    missingTxIds := [] }

/-- A mock chain source serving the linked blocks at heights 0–51. -/
def cs51 : ChainSource :=
  { getBlockByHeight := fun h => if h ≤ 51 then some (mockBlock h) else none
    getTx := fun _ => none
    missingTxIds := [] }

/-- A fresh importer with `startHeight = 1` (gap scenario). -/
def imp0 : BlockImporter :=
  { startHeight := 1, chainDb := emptyDb }

/-- The importer state after importing block 1 in the gap scenario. -/
def imp1 : BlockImporter :=
  { startHeight := 1, chainDb := emptyDb.saveBlockAndTxs (mockBlock 1) [] [] }

/-- The tx id marked unavailable in the missing-transaction scenario. -/
def oqTxId : String := "oq-v4Cv61YAGmY_KlLdxmGp5HjcldvOSLOMv0UPjSTE"

/-- The mock block at height 982575: three transactions, one of which is
the id marked unavailable. -/
def block982575 : JsonBlock :=
  { indep_hash := "id982575"
    previous_block := "id982574"
    height := 982575
    txs := ["tx1", "tx2", oqTxId] }

/-- A mock chain source for the height-982575 scenarios: serves
`block982575` and its transactions, with `oqTxId` marked unavailable. -/
def cs982575 : ChainSource :=
  { getBlockByHeight := fun h => if h = 982575 then some block982575 else none
    getTx := fun txId =>
      if txId = "tx1" then some { id := "tx1" }
      else if txId = "tx2" then some { id := "tx2" }
      else if txId = oqTxId then some { id := oqTxId }
      else none
    missingTxIds := [oqTxId] }

/-- A database holding a single stored block at height 51 whose id differs
from the upstream one (the fork-overflow witness state). -/
def dbFork : ChainDb :=
  { blocks := [{ indep_hash := "stored51", previous_block := "stored50",
                 height := 51, txs := [] }]
    txs := []
    missingTxIds := [] }

/-- An upstream source whose blocks at heights 51 and 52 disagree with
`dbFork`: the stored id at 51 never matches, and no other height is stored,
so no backward step of fork repair can find a common ancestor. -/
def csFork : ChainSource :=
  { getBlockByHeight := fun h =>
      if h = 52 then
        some { indep_hash := "new52", previous_block := "new51", height := 52, txs := [] }
      else if h = 51 then
        some { indep_hash := "new51", previous_block := "new50", height := 51, txs := [] }
      else none
    getTx := fun _ => none
    missingTxIds := [] }

/-- A concrete data route path: a slash followed by a 43-character
base64url id. -/
def samplePath : String := "/aaaaaaaaaaaaaaaaaaaaaaaaaaaaaaaaaaaaaaaaaaa"

/-- Decidable equality for `Except` results, so that concrete runs of the
embedded operations can be checked by `decide`. -/
instance {ε α : Type} [DecidableEq ε] [DecidableEq α] : DecidableEq (Except ε α) :=
  fun a b =>
    match a, b with
    | .ok x, .ok y =>
      if h : x = y then .isTrue (by rw [h])
      else .isFalse (fun hh => h (Except.ok.inj hh))
    | .error x, .error y =>
      if h : x = y then .isTrue (by rw [h])
      else .isFalse (fun hh => h (Except.error.inj hh))
    | .ok _, .error _ => .isFalse (fun hh => Except.noConfusion hh)
    | .error _, .ok _ => .isFalse (fun hh => Except.noConfusion hh)

/-! ## Helper lemmas -/

theorem init_le_foldl_max (l : List JsonBlock) (i : Int) :
    i ≤ l.foldl (fun m b => max m (b.height : Int)) i := by
  induction l generalizing i with
  | nil => simp
  | cons b t ih =>
    simp only [List.foldl_cons]
    exact le_trans (le_max_left i (b.height : Int)) (ih (max i (b.height : Int)))

theorem neg_one_le_getMaxHeight (db : ChainDb) : -1 ≤ db.getMaxHeight :=
  init_le_foldl_max db.blocks (-1)

theorem maxHeightOf_append (l : List JsonBlock) (b : JsonBlock) :
    maxHeightOf (l ++ [b]) = max (maxHeightOf l) (b.height : Int) := by
  simp [maxHeightOf, List.foldl_append]

theorem foldl_insertBy_length {α : Type} (key : α → String) (l : List α) :
    ∀ acc : List α, (∀ x ∈ l, ∀ y ∈ acc, key y ≠ key x) → (l.map key).Nodup →
      (l.foldl (insertBy key) acc).length = acc.length + l.length := by
  induction l with
  | nil => intro acc _ _; simp
  | cons x t ih =>
    intro acc hfresh hnodup
    have hany : (acc.any (fun y => key y == key x)) = false := by
      rw [List.any_eq_false]
      intro y hy
      simpa using hfresh x (List.mem_cons_self x t) y hy
    have hstep : insertBy key acc x = acc ++ [x] := by
      simp [insertBy, hany]
    have hnodup2 : ((x :: t).map key).Nodup := hnodup
    rw [List.map_cons, List.nodup_cons] at hnodup2
    have hfresh2 : ∀ z ∈ t, ∀ y ∈ acc ++ [x], key y ≠ key z := by
      intro z hz y hy
      rcases List.mem_append.mp hy with h1 | h1
      · exact hfresh z (List.mem_cons_of_mem x hz) y h1
      · have hyx : y = x := by simpa using h1
        subst hyx
        intro hkey
        exact hnodup2.1 (hkey ▸ List.mem_map_of_mem key hz)
    rw [List.foldl_cons, hstep, ih (acc ++ [x]) hfresh2 hnodup2.2]
    simp [List.length_append]
    omega

theorem foldl_collectTxs (cs : ChainSource) (ids : List String) :
    ∀ (t0 : List JsonTransaction) (m0 : List String),
      ids.foldl (collectTxs cs) (t0, m0)
        = (t0 ++ ids.filterMap
              (fun txId => if cs.missingTxIds.contains txId then none else cs.getTx txId),
           m0 ++ ids.filter
              (fun txId => cs.missingTxIds.contains txId || (cs.getTx txId).isNone)) := by
  induction ids with
  | nil => intro t0 m0; simp
  | cons i t ih =>
    intro t0 m0
    rw [List.foldl_cons]
    by_cases hmem : i ∈ cs.missingTxIds
    · have hc : collectTxs cs (t0, m0) i = (t0, m0 ++ [i]) := by
        simp [collectTxs, hmem]
      rw [hc, ih]
      simp [hmem, List.filter_cons, List.filterMap_cons]
    · cases hget : cs.getTx i with
      | some tx =>
        have hc : collectTxs cs (t0, m0) i = (t0 ++ [tx], m0) := by
          simp [collectTxs, hmem, hget]
        rw [hc, ih]
        simp [hmem, hget, List.filter_cons, List.filterMap_cons]
      | none =>
        have hc : collectTxs cs (t0, m0) i = (t0, m0 ++ [i]) := by
          simp [collectTxs, hmem, hget]
        rw [hc, ih]
        simp [hmem, hget, List.filter_cons, List.filterMap_cons]

theorem collect_partition_length (cs : ChainSource) (ids : List String) :
    (ids.filterMap
        (fun txId => if cs.missingTxIds.contains txId then none else cs.getTx txId)).length
      + (ids.filter
          (fun txId => cs.missingTxIds.contains txId || (cs.getTx txId).isNone)).length
      = ids.length := by
  induction ids with
  | nil => simp
  | cons i t ih =>
    by_cases hmem : i ∈ cs.missingTxIds
    · simp [hmem, List.filter_cons, List.filterMap_cons] at ih ⊢
      omega
    · cases hget : cs.getTx i with
      | some tx =>
        simp [hmem, hget, List.filter_cons, List.filterMap_cons] at ih ⊢
        omega
      | none =>
        simp [hmem, hget, List.filter_cons, List.filterMap_cons] at ih ⊢
        omega

theorem forkRepair_no_match (cs : ChainSource) (db : ChainDb) :
    ∀ fuel h : Nat, (∀ k, k < fuel → forkMatch cs db (h - k) = false) →
      forkRepair cs db fuel h = .error .maximumForkDepthExceeded := by
  intro fuel
  induction fuel with
  | zero => intro h _; rfl
  | succ n ih =>
    intro h hno
    have h0 : forkMatch cs db h = false := by
      simpa using hno 0 (Nat.succ_pos n)
    rw [forkRepair, h0]
    simp only [Bool.false_eq_true, if_false]
    exact ih (h - 1) (fun k hk => by
      have hk1 := hno (k + 1) (Nat.succ_lt_succ hk)
      have heq : h - 1 - k = h - (k + 1) := by omega
      rw [heq]
      exact hk1)

theorem getNextHeight_some (imp : BlockImporter) (tip n : Nat)
    (h : getNextHeight imp tip = some n) : n = nextHeightCandidate imp := by
  unfold getNextHeight at h
  split at h
  · exact Option.noConfusion h
  · exact (Option.some.inj h).symm

theorem nextHeightCandidate_cast (imp : BlockImporter)
    (hstart : imp.startHeight ≤ (imp.chainDb.getMaxHeight + 1).toNat) :
    (nextHeightCandidate imp : Int) = imp.chainDb.getMaxHeight + 1 := by
  unfold nextHeightCandidate
  rw [Nat.max_eq_right hstart]
  exact Int.toNat_of_nonneg (by have := neg_one_le_getMaxHeight imp.chainDb; omega)

theorem isBase64UrlChar_eq_isDataPathChar : isBase64UrlChar = isDataPathChar := by
  funext c
  rw [Bool.eq_iff_iff]
  simp only [isBase64UrlChar, isDataPathChar, Bool.or_eq_true, Bool.and_eq_true,
    decide_eq_true_eq, beq_iff_eq]
  tauto

theorem restAccepted_takeClass (n : Nat) :
    ∀ l : List Char,
      restAccepted (takeClass43 n l) = true
        ↔ (firstSegment l).length = n ∧ (firstSegment l).all isDataPathChar = true := by
  induction n with
  | zero =>
    intro l
    cases l with
    | nil => simp [takeClass43, restAccepted, firstSegment]
    | cons c cs =>
      by_cases hc : c = '/'
      · subst hc
        simp [takeClass43, restAccepted, firstSegment, List.takeWhile_cons]
      · have hcb : (c == '/') = false := by simpa using hc
        simp [takeClass43, restAccepted, firstSegment, List.takeWhile_cons, hcb]
  | succ n ih =>
    intro l
    cases l with
    | nil => simp [takeClass43, restAccepted, firstSegment]
    | cons c cs =>
      by_cases hcls : isDataPathChar c = true
      · have hne : c ≠ '/' := by
          intro h
          subst h
          exact absurd hcls (by decide)
        have hslash : (c == '/') = false := by simpa using hne
        rw [show takeClass43 (n + 1) (c :: cs) = takeClass43 n cs from by
          simp [takeClass43, hcls]]
        rw [ih cs]
        unfold firstSegment
        rw [List.takeWhile_cons]
        simp only [hslash, Bool.not_false, if_true]
        simp only [List.length_cons, List.all_cons, hcls, Bool.true_and]
        constructor
        · rintro ⟨h1, h2⟩; exact ⟨by omega, h2⟩
        · rintro ⟨h1, h2⟩; exact ⟨by omega, h2⟩
      · by_cases hc : c = '/'
        · subst hc
          rw [show takeClass43 (n + 1) ('/' :: cs) = none from by
            have hd : isDataPathChar '/' = false := by decide
            simp [takeClass43, hd]]
          simp [restAccepted, firstSegment, List.takeWhile_cons]
        · have hcb : (c == '/') = false := by simpa using hc
          rw [show takeClass43 (n + 1) (c :: cs) = none from by
            simp [takeClass43, hcls]]
          unfold firstSegment
          rw [List.takeWhile_cons]
          simp [restAccepted, hcb, hcls]

theorem dataPath_regex_eq_spec (s : String) (r : List Char) (hr : s.data = '/' :: r) :
    dataPathRegexTest s = specDataPath s := by
  have hspec : specDataPath s
      = ((firstSegment r).length == 43 && (firstSegment r).all isBase64UrlChar) := by
    unfold specDataPath
    rw [hr]
    rfl
  have hregex : dataPathRegexTest s = restAccepted (takeClass43 43 r) := by
    unfold dataPathRegexTest afterOptionalSlash
    rw [hr]
    rfl
  rw [hspec, hregex, isBase64UrlChar_eq_isDataPathChar]
  cases hR : ((firstSegment r).length == 43 && (firstSegment r).all isDataPathChar) with
  | true =>
    have hcond : (firstSegment r).length = 43 ∧ (firstSegment r).all isDataPathChar = true := by
      simpa [Bool.and_eq_true, beq_iff_eq] using hR
    exact (restAccepted_takeClass 43 r).mpr hcond
  | false =>
    cases hL : restAccepted (takeClass43 43 r) with
    | false => rfl
    | true =>
      have hcond := (restAccepted_takeClass 43 r).mp hL
      have : ((firstSegment r).length == 43 && (firstSegment r).all isDataPathChar) = true := by
        simp [hcond.1, hcond.2]
      rw [this] at hR
      exact hR

/-! ## Claim theorems -/

/-- Claim C1: starting from an empty store with `startHeight = 1`, calling
`importBlock(1)` and then `importBlock(6)` results in exactly two stored
blocks and `getMaxHeight() = 2` (not 6). -/
theorem claim_C1_gap_import :
    ((importBlock cs6 imp0 1).bind (fun i => importBlock cs6 i 6)).map
        (fun i => (i.chainDb.getDebugInfo.newBlocks, i.chainDb.getMaxHeight))
      = .ok (2, (2 : Int)) := by
  decide

/-- Claim C3, amended: when `importBlock` enters fork repair (a stored
predecessor exists, it mismatches the fetched block's `previous_block`, and
the height step is not a pure gap) and no stored block id matches the
upstream block id at any of the `MAX_FORK_DEPTH = 50` backward steps, the
call fails with `MaximumForkDepthExceeded`. (With no prior blocks stored
fork repair is never entered, so the claim's `importBlock(51)`-on-empty
instance does not raise this error — see the counterexample.) -/
theorem claim_C3_fork_depth_exceeded (cs : ChainSource) (imp : BlockImporter)
    (nextHeight : Nat) (r : BlockAndTxs)
    (hfetch : getBlockAndTxsByHeight cs nextHeight = .ok r)
    (hstored : 0 ≤ imp.chainDb.getMaxHeight)
    (hmismatch : imp.chainDb.getNewBlockHashByHeight (nextHeight - 1)
      ≠ some r.block.previous_block)
    (hnogap : ¬(1 < (nextHeight : Int) - imp.chainDb.getMaxHeight))
    (hnomatch : ∀ k, k < MAX_FORK_DEPTH →
      forkMatch cs imp.chainDb (nextHeight - 1 - k) = false) :
    importBlock cs imp nextHeight = .error .maximumForkDepthExceeded := by
  unfold importBlock
  rw [hfetch]
  dsimp only
  rw [if_pos ⟨hstored, hmismatch⟩, if_neg hnogap,
    forkRepair_no_match cs imp.chainDb MAX_FORK_DEPTH (nextHeight - 1) hnomatch]

/-- Witness for claim C3: a store whose only block (at height 51) never
matches upstream, so importing height 52 walks all 50 backward steps
without a match and fails fatally. -/
theorem claim_C3_witness :
    importBlock csFork { startHeight := 0, chainDb := dbFork } 52
      = .error .maximumForkDepthExceeded := by
  exact claim_C3_fork_depth_exceeded csFork { startHeight := 0, chainDb := dbFork } 52
    { block := { indep_hash := "new52", previous_block := "new51", height := 52, txs := [] }
      txs := [], missingTxIds := [] }
    (by decide) (by decide) (by decide) (by decide) (by decide)

/-- Counterexample to claim C3 as stated: with no prior blocks stored the
`storedMaxHeight ≥ 0` guard fails, fork repair is never entered, and
`importBlock(51)` from an empty store with `startHeight = 0` succeeds —
storing block 51 — instead of raising `MaximumForkDepthExceeded`. -/
theorem claim_C3_counterexample :
    importBlock cs51 { startHeight := 0, chainDb := emptyDb } 51
        ≠ .error .maximumForkDepthExceeded
      ∧ (importBlock cs51 { startHeight := 0, chainDb := emptyDb } 51).map
          (fun i => (i.chainDb.getDebugInfo.newBlocks, i.chainDb.getMaxHeight))
        = .ok (1, (51 : Int)) := by
  exact ⟨by decide, by decide⟩

/-- Claim C8: on request paths (which begin with `/`) the data route's
regex accepts exactly the paths whose first segment is a 43-character
base64url id, optionally followed by a subpath; the handler responds 200
streaming the payload on success and 404 when the data source raises
`DataStreamError` or `NotFound`. -/
theorem claim_C8_data_route :
    (∀ (s : String) (r : List Char), s.data = '/' :: r →
        dataPathRegexTest s = specDataPath s)
      ∧ (∀ bytes : List Nat,
          dataRouteHandler (.ok bytes) = { status := 200, body := .stream bytes })
      ∧ dataRouteHandler (.error .dataStream)
          = { status := 404, body := .text "Not found" }
      ∧ dataRouteHandler (.error .notFound)
          = { status := 404, body := .text "Not found" } :=
  ⟨dataPath_regex_eq_spec, fun _ => rfl, rfl, rfl⟩

/-- Witness for claim C8 at a concrete path and payload. -/
theorem claim_C8_witness :
    dataPathRegexTest samplePath = specDataPath samplePath
      ∧ dataRouteHandler (.ok [1, 2, 3]) = { status := 200, body := .stream [1, 2, 3] } :=
  ⟨claim_C8_data_route.1 samplePath (List.replicate 43 'a') (by decide),
   claim_C8_data_route.2.1 [1, 2, 3]⟩

/-- Claim C9: with the application's `uncaughtException` listener
registered, every uncaught exception increments
`uncaught_exceptions_total` by one, is logged, and leaves the process
alive. -/
theorem claim_C9_uncaught_exceptions (m : MetricsState) (error : String) :
    (raiseUncaughtException (appProcess m) error).metrics.uncaughtExceptionsTotal
        = m.uncaughtExceptionsTotal + 1
      ∧ (raiseUncaughtException (appProcess m) error).metrics.logs
          = m.logs ++ ["Uncaught exception: " ++ error]
      ∧ (raiseUncaughtException (appProcess m) error).crashed = false :=
  ⟨rfl, rfl, rfl⟩

/-- Claim C10: every error thrown while serving the data route — whatever
its kind — produces a 404 response with body "Not found", and no outcome of
the handler ever carries status 500. -/
theorem claim_C10_no_500 :
    (∀ e : TxDataError,
        dataRouteHandler (.error e) = { status := 404, body := .text "Not found" })
      ∧ (∀ result : Except TxDataError (List Nat), (dataRouteHandler result).status ≠ 500) := by
  constructor
  · intro e
    rfl
  · intro result
    cases result with
    | ok bytes => simp [dataRouteHandler]
    | error e => simp [dataRouteHandler]

/-- Claim C2: on a pure gap (`nextHeight - storedMaxHeight > 1` with a
stored predecessor mismatch), `importBlock` imports the first block of the
gap — the one fetched at `storedMaxHeight + 1` — storing it at its true
height, and the importer's height counter advances by exactly one. -/
theorem claim_C2_gap_first_block (cs : ChainSource) (imp : BlockImporter)
    (nextHeight : Nat) (r g : BlockAndTxs)
    (hfetch : getBlockAndTxsByHeight cs nextHeight = .ok r)
    (hstored : 0 ≤ imp.chainDb.getMaxHeight)
    (hmismatch : imp.chainDb.getNewBlockHashByHeight (nextHeight - 1)
      ≠ some r.block.previous_block)
    (hgap : 1 < (nextHeight : Int) - imp.chainDb.getMaxHeight)
    (hgfetch : getBlockAndTxsByHeight cs (imp.chainDb.getMaxHeight + 1).toNat = .ok g)
    (hheight : (g.block.height : Int) = imp.chainDb.getMaxHeight + 1)
    (hfresh : ∀ b ∈ imp.chainDb.blocks, b.indep_hash ≠ g.block.indep_hash)
    (hstart : imp.startHeight ≤ (imp.chainDb.getMaxHeight + 1).toNat + 1) :
    importBlock cs imp nextHeight
        = .ok { imp with
                chainDb := imp.chainDb.saveBlockAndTxs g.block g.txs g.missingTxIds }
      ∧ g.block ∈ (imp.chainDb.saveBlockAndTxs g.block g.txs g.missingTxIds).blocks
      ∧ (imp.chainDb.saveBlockAndTxs g.block g.txs g.missingTxIds).getMaxHeight
          = imp.chainDb.getMaxHeight + 1
      ∧ nextHeightCandidate
            { imp with
              chainDb := imp.chainDb.saveBlockAndTxs g.block g.txs g.missingTxIds }
          = (imp.chainDb.getMaxHeight + 1).toNat + 1 := by
  have hany : (imp.chainDb.blocks.any
      (fun b => b.indep_hash == g.block.indep_hash)) = false := by
    rw [List.any_eq_false]
    intro b hb
    simpa using hfresh b hb
  have hsave : imp.chainDb.saveBlockAndTxs g.block g.txs g.missingTxIds
      = { blocks := imp.chainDb.blocks ++ [g.block]
          txs := g.txs.foldl (insertBy (fun t => t.id)) imp.chainDb.txs
          missingTxIds :=
            (g.missingTxIds.map (fun m => MissingTxEntry.mk m g.block.height)).foldl
              (insertBy (fun e => e.txId)) imp.chainDb.missingTxIds } := by
    simp [ChainDb.saveBlockAndTxs, hany]
  have hmax : (imp.chainDb.saveBlockAndTxs g.block g.txs g.missingTxIds).getMaxHeight
      = imp.chainDb.getMaxHeight + 1 := by
    rw [hsave]
    show maxHeightOf (imp.chainDb.blocks ++ [g.block]) = imp.chainDb.getMaxHeight + 1
    rw [maxHeightOf_append, hheight]
    exact max_eq_right (by
      have h1 : imp.chainDb.getMaxHeight = maxHeightOf imp.chainDb.blocks := rfl
      omega)
  refine ⟨?_, ?_, hmax, ?_⟩
  · unfold importBlock
    rw [hfetch]
    dsimp only
    rw [if_pos ⟨hstored, hmismatch⟩, if_pos hgap, hgfetch]
  · rw [hsave]
    simp
  · unfold nextHeightCandidate
    dsimp only
    rw [hmax]
    have := neg_one_le_getMaxHeight imp.chainDb
    omega

/-- Witness for claim C2: after importing block 1 in the gap scenario,
importing height 6 stores the block at height 2 and advances the next
height from 2 to 3. -/
theorem claim_C2_witness :
    importBlock cs6 imp1 6
        = .ok { imp1 with chainDb := imp1.chainDb.saveBlockAndTxs (mockBlock 2) [] [] }
      ∧ mockBlock 2 ∈ (imp1.chainDb.saveBlockAndTxs (mockBlock 2) [] []).blocks
      ∧ (imp1.chainDb.saveBlockAndTxs (mockBlock 2) [] []).getMaxHeight
          = imp1.chainDb.getMaxHeight + 1
      ∧ nextHeightCandidate
            { imp1 with chainDb := imp1.chainDb.saveBlockAndTxs (mockBlock 2) [] [] }
          = (imp1.chainDb.getMaxHeight + 1).toNat + 1 :=
  claim_C2_gap_first_block cs6 imp1 6
    { block := mockBlock 6, txs := [], missingTxIds := [] }
    { block := mockBlock 2, txs := [], missingTxIds := [] }
    (by decide) (by decide) (by decide) (by decide) (by decide) (by decide)
    (by decide) (by decide)

/-- Claim C6: for every height whose block is available, the mock chain
source's `getBlockAndTxsByHeight` succeeds with the block and a partition
of the block's tx id list — the txs whose fetch succeeded (and were not
marked missing) and the ids that were marked missing or whose fetch failed
— and the two parts together account for every tx id. -/
theorem claim_C6_block_txs_partition (cs : ChainSource) (h : Nat) (b : JsonBlock)
    (hb : cs.getBlockByHeight h = some b) :
    getBlockAndTxsByHeight cs h
        = .ok { block := b
                txs := b.txs.filterMap
                  (fun txId => if cs.missingTxIds.contains txId then none
                    else cs.getTx txId)
                missingTxIds := b.txs.filter
                  (fun txId => cs.missingTxIds.contains txId
                    || (cs.getTx txId).isNone) }
      ∧ (b.txs.filterMap
            (fun txId => if cs.missingTxIds.contains txId then none
              else cs.getTx txId)).length
          + (b.txs.filter
              (fun txId => cs.missingTxIds.contains txId
                || (cs.getTx txId).isNone)).length
          = b.txs.length := by
  constructor
  · unfold getBlockAndTxsByHeight
    rw [hb]
    dsimp only
    rw [foldl_collectTxs cs b.txs [] []]
    simp
  · exact collect_partition_length cs b.txs

/-- Witness for claim C6 at the height-982575 fixture: the two successful
txs are returned and the unavailable id goes to `missingTxIds`. -/
theorem claim_C6_witness :
    getBlockAndTxsByHeight cs982575 982575
        = .ok { block := block982575
                txs := block982575.txs.filterMap
                  (fun txId => if cs982575.missingTxIds.contains txId then none
                    else cs982575.getTx txId)
                missingTxIds := block982575.txs.filter
                  (fun txId => cs982575.missingTxIds.contains txId
                    || (cs982575.getTx txId).isNone) }
      ∧ (block982575.txs.filterMap
            (fun txId => if cs982575.missingTxIds.contains txId then none
              else cs982575.getTx txId)).length
          + (block982575.txs.filter
              (fun txId => cs982575.missingTxIds.contains txId
                || (cs982575.getTx txId).isNone)).length
          = block982575.txs.length :=
  claim_C6_block_txs_partition cs982575 982575 block982575 (by decide)

/-- Claim C4: whenever `getNextHeight` returns, it returns
`max(startHeight, storedMaxHeight + 1)`; on an empty store it returns
`startHeight` (once the tip permits), and after importing the single block
at height 1 it returns 2. -/
theorem claim_C4_next_height :
    (∀ (imp : BlockImporter) (tip n : Nat), getNextHeight imp tip = some n →
        (n : Int) = max (imp.startHeight : Int) (imp.chainDb.getMaxHeight + 1))
      ∧ (∀ start tip : Nat, start ≤ tip →
          getNextHeight { startHeight := start, chainDb := emptyDb } tip = some start)
      ∧ (∀ i : BlockImporter, importBlock cs6 imp0 1 = .ok i →
          ∀ tip : Nat, 2 ≤ tip → getNextHeight i tip = some 2) := by
  refine ⟨?_, ?_, ?_⟩
  · intro imp tip n h
    rw [getNextHeight_some imp tip n h]
    unfold nextHeightCandidate
    have hm := neg_one_le_getMaxHeight imp.chainDb
    push_cast
    rw [Int.toNat_of_nonneg (by omega)]
  · intro start tip hst
    have hcand : nextHeightCandidate { startHeight := start, chainDb := emptyDb }
        = start := by
      simp [nextHeightCandidate, ChainDb.getMaxHeight, emptyDb, maxHeightOf]
    unfold getNextHeight
    rw [hcand, if_neg (by omega)]
  · intro i hi tip htip
    have h2 : importBlock cs6 imp0 1 = .ok imp1 := by decide
    rw [h2] at hi
    have hieq : i = imp1 := (Except.ok.inj hi).symm
    subst hieq
    have hcand : nextHeightCandidate imp1 = 2 := by decide
    unfold getNextHeight
    rw [hcand, if_neg (by omega)]

/-- Witness for claim C4: one concrete instance of each conjunct. -/
theorem claim_C4_witness :
    ((2 : Nat) : Int) = max ((1 : Nat) : Int) (imp1.chainDb.getMaxHeight + 1)
      ∧ getNextHeight { startHeight := 7, chainDb := emptyDb } 10 = some 7
      ∧ getNextHeight imp1 5 = some 2 :=
  ⟨claim_C4_next_height.1 imp1 5 2 (by decide),
   claim_C4_next_height.2.1 7 10 (by decide),
   claim_C4_next_height.2.2 imp1 (by decide) 5 (by decide)⟩

/-- Claim C5: while every observed tip is below the candidate next height
the poll does not return; when it returns it yields exactly
`storedMaxHeight + 1` regardless of how far the tip jumped; concretely,
with max stored height 1 a poll seeing tip 1 stays waiting, and one seeing
tips 1 then 3 returns 2. -/
theorem claim_C5_tip_stalled :
    (∀ (imp : BlockImporter) (tips : List Nat),
        (∀ t ∈ tips, t < nextHeightCandidate imp) → getNextHeightAwait imp tips = none)
      ∧ (∀ (imp : BlockImporter) (tips : List Nat) (n : Nat),
          imp.startHeight ≤ (imp.chainDb.getMaxHeight + 1).toNat →
          getNextHeightAwait imp tips = some n →
          (n : Int) = imp.chainDb.getMaxHeight + 1)
      ∧ (∀ i : BlockImporter, importBlock cs6 imp0 1 = .ok i →
          getNextHeightAwait i [1] = none ∧ getNextHeightAwait i [1, 3] = some 2) := by
  refine ⟨?_, ?_, ?_⟩
  · intro imp tips h
    induction tips with
    | nil => rfl
    | cons t ts ih =>
      have ht : t < nextHeightCandidate imp := h t (by simp)
      have hstep : getNextHeight imp t = none := by
        unfold getNextHeight
        rw [if_pos ht]
      unfold getNextHeightAwait
      rw [hstep]
      exact ih (fun x hx => h x (by simp [hx]))
  · intro imp tips n hstart
    induction tips with
    | nil =>
      intro h
      exact Option.noConfusion h
    | cons t ts ih =>
      intro h
      unfold getNextHeightAwait at h
      cases hg : getNextHeight imp t with
      | some m =>
        rw [hg] at h
        dsimp only at h
        have hm := getNextHeight_some imp t m hg
        have hmn : m = n := Option.some.inj h
        rw [← hmn, hm]
        exact nextHeightCandidate_cast imp hstart
      | none =>
        rw [hg] at h
        dsimp only at h
        exact ih h
  · intro i hi
    have h2 : importBlock cs6 imp0 1 = .ok imp1 := by decide
    rw [h2] at hi
    have hieq : i = imp1 := (Except.ok.inj hi).symm
    subst hieq
    exact ⟨by decide, by decide⟩

/-- Witness for claim C5: concrete instances of each conjunct at the
post-import state with max stored height 1. -/
theorem claim_C5_witness :
    getNextHeightAwait imp1 [0, 1] = none
      ∧ ((2 : Nat) : Int) = imp1.chainDb.getMaxHeight + 1
      ∧ getNextHeightAwait imp1 [1] = none
      ∧ getNextHeightAwait imp1 [1, 3] = some 2 :=
  ⟨claim_C5_tip_stalled.1 imp1 [0, 1] (by decide),
   claim_C5_tip_stalled.2.1 imp1 [1, 3] 2 (by decide) (by decide),
   (claim_C5_tip_stalled.2.2 imp1 (by decide)).1,
   (claim_C5_tip_stalled.2.2 imp1 (by decide)).2⟩

/-- Claim C7: `saveBlockAndTxs(b, txs, missing)` with a fresh block, fresh
distinct txs and fresh distinct missing ids changes the debug counts by
exactly `newBlocks + 1`, `newTxs + |txs|` and `missingTxs + |missing|`;
concretely, importing block 982575 with one tx marked unavailable yields
`newBlocks = 1`, `newTxs = 2`, `missingTxs = 1` and `maxHeight = 982575`. -/
theorem claim_C7_debug_counts :
    (∀ (db : ChainDb) (b : JsonBlock) (txs : List JsonTransaction)
        (missing : List String),
        (∀ blk ∈ db.blocks, blk.indep_hash ≠ b.indep_hash) →
        (∀ t ∈ txs, ∀ t0 ∈ db.txs, t0.id ≠ t.id) →
        (txs.map (fun t => t.id)).Nodup →
        (∀ m ∈ missing, ∀ e ∈ db.missingTxIds, e.txId ≠ m) →
        missing.Nodup →
          (db.saveBlockAndTxs b txs missing).getDebugInfo.newBlocks
              = db.getDebugInfo.newBlocks + 1
            ∧ (db.saveBlockAndTxs b txs missing).getDebugInfo.newTxs
                = db.getDebugInfo.newTxs + txs.length
            ∧ (db.saveBlockAndTxs b txs missing).getDebugInfo.missingTxs
                = db.getDebugInfo.missingTxs + missing.length)
      ∧ (importBlock cs982575 { startHeight := 982575, chainDb := emptyDb } 982575).map
          (fun i => i.chainDb.getDebugInfo)
        = .ok { newBlocks := 1, newTxs := 2, missingTxs := 1, maxHeight := 982575 } := by
  constructor
  · intro db b txs missing hblk htx hnodupT hmiss hnodupM
    have hany : (db.blocks.any (fun blk => blk.indep_hash == b.indep_hash)) = false := by
      rw [List.any_eq_false]
      intro blk hb
      simpa using hblk blk hb
    have hsave : db.saveBlockAndTxs b txs missing
        = { blocks := db.blocks ++ [b]
            txs := txs.foldl (insertBy (fun t => t.id)) db.txs
            missingTxIds :=
              (missing.map (fun m => MissingTxEntry.mk m b.height)).foldl
                (insertBy (fun e => e.txId)) db.missingTxIds } := by
      simp [ChainDb.saveBlockAndTxs, hany]
    refine ⟨?_, ?_, ?_⟩
    · simp [hsave, ChainDb.getDebugInfo]
    · show (db.saveBlockAndTxs b txs missing).txs.length = db.txs.length + txs.length
      rw [hsave]
      exact foldl_insertBy_length (fun t => t.id) txs db.txs htx hnodupT
    · show (db.saveBlockAndTxs b txs missing).missingTxIds.length
          = db.missingTxIds.length + missing.length
      rw [hsave]
      have hfresh2 : ∀ x ∈ missing.map (fun m => MissingTxEntry.mk m b.height),
          ∀ y ∈ db.missingTxIds, y.txId ≠ x.txId := by
        intro x hx y hy
        obtain ⟨m, hm, rfl⟩ := List.mem_map.mp hx
        exact hmiss m hm y hy
      have hmapid : (missing.map (fun m => MissingTxEntry.mk m b.height)).map
          (fun e => e.txId) = missing := by
        rw [List.map_map]
        exact List.map_id missing
      have hnodup2 : ((missing.map (fun m => MissingTxEntry.mk m b.height)).map
          (fun e => e.txId)).Nodup := by
        rw [hmapid]
        exact hnodupM
      have := foldl_insertBy_length (fun e => e.txId)
        (missing.map (fun m => MissingTxEntry.mk m b.height)) db.missingTxIds
        hfresh2 hnodup2
      rw [this, List.length_map]
  · decide

/-- Witness for claim C7: saving block 982575 with two fresh txs and one
fresh missing id into the empty database moves the counts from zero to
(1, 2, 1). -/
theorem claim_C7_witness :
    (emptyDb.saveBlockAndTxs block982575
          [{ id := "tx1" }, { id := "tx2" }] [oqTxId]).getDebugInfo.newBlocks
        = emptyDb.getDebugInfo.newBlocks + 1
      ∧ (emptyDb.saveBlockAndTxs block982575
            [{ id := "tx1" }, { id := "tx2" }] [oqTxId]).getDebugInfo.newTxs
          = emptyDb.getDebugInfo.newTxs + 2
      ∧ (emptyDb.saveBlockAndTxs block982575
            [{ id := "tx1" }, { id := "tx2" }] [oqTxId]).getDebugInfo.missingTxs
          = emptyDb.getDebugInfo.missingTxs + 1 :=
  claim_C7_debug_counts.1 emptyDb block982575
    [{ id := "tx1" }, { id := "tx2" }] [oqTxId]
    (by decide) (by decide) (by decide) (by decide) (by decide)

end ArIoNode
